import Mathlib

/-
Verification development for the mixer proxy/diff/changeset engine.

The definitions below are a shallow embedding of the relevant parts of
  src/mixer/blender_data/bpy_data_proxy.py
  src/mixer/blender_data/specifics.py
  src/mixer/blender_client/collection.py
Python dicts keyed by uuids or names are modelled as association lists,
Python sets as lists up to membership, exceptions as `Option`/`Except`,
and Python's stable builtin `sorted(xs, key=k)` as insertion sort by key.
-/

namespace Mixer

abbrev Uuid := String

/-- `sys.maxsize` on a 64-bit platform, the default value used by the
ordering predicates of `bpy_data_proxy.py`. -/
def sysMaxsize : Nat := 2 ^ 63 - 1

/-- The comparison relation induced by an integer sort key. -/
def keyLe {α : Type} (key : α → Nat) (a b : α) : Prop :=
  key a ≤ key b

instance {α : Type} (key : α → Nat) : DecidableRel (keyLe key) :=
  fun a b => Nat.decLe (key a) (key b)

/-- Python's builtin `sorted(xs, key=k)`: a stable sort by an integer key.
Insertion sort with `keyLe` is stable, hence agrees with Python's sort. -/
def pySorted {α : Type} (key : α → Nat) (l : List α) : List α :=
  List.insertionSort (keyLe key) l

/-- The Blender datablock types (`bpy.types` classes) that appear in the
ordering tables of `bpy_data_proxy.py`, plus a catch-all for the rest. -/
inductive BType
  | Object
  | Mesh
  | Key
  | Scene
  | Light
  | other
deriving DecidableEq

/-- `_updates_order` dict of `bpy_data_proxy.py` (lines 186-190):
`T.Key` before `T.Mesh` (for shape keys), `T.Mesh` before `T.Object`
(for vertex groups), anything else last. -/
def _updates_order : BType → Option Nat
  | .Key => some 5
  | .Mesh => some 10
  | _ => none

/-- `_removal_order` dict of `bpy_data_proxy.py` (lines 197-202): remove
`T.Object` before its data. Defined in the source but never used by it. -/
def _removal_order : BType → Option Nat
  | .Object => some 10
  | _ => none

/-- `_updates_order_predicate` (lines 193-194): sort key of a depsgraph
update, `_updates_order.get(type(datablock), sys.maxsize)`. The update is
modelled as a (uuid, type) pair. -/
def _updates_order_predicate (datablock : Uuid × BType) : Nat :=
  (_updates_order datablock.2).getD sysMaxsize

/-- A `Removal` entry of a changeset: (uuid, type-tag). -/
abbrev Removal := Uuid × BType

/-- `_remove_order_predicate` (lines 205-206). The source body is
`_updates_order.get(removal[1], sys.maxsize)`: it consults the
`_updates_order` table, not `_removal_order`. -/
def _remove_order_predicate (removal : Removal) : Nat :=
  (_updates_order removal.2).getD sysMaxsize

/-- Line 295 of `BpyDataProxy.update`:
`changeset.removals = sorted(changeset.removals, key=_remove_order_predicate)`. -/
def sortRemovals (removals : List Removal) : List Removal :=
  pySorted _remove_order_predicate removals

/-- `_creation_order` dict lookup with default 0 (lines 169-183):
`_creation_order.get(name, 0)`. -/
def _creation_order (name : String) : Nat :=
  if name = "collections" then 10
  else if name = "scenes" then 20
  else if name = "objects" then 30
  else if name = "shape_keys" then 40
  else 0

/-- `_creation_order_predicate` (lines 181-183): sort key of an item
(bpy.data collection name, delta). The delta payload is abstract. -/
def _creation_order_predicate {Δ : Type} (item : String × Δ) : Nat :=
  _creation_order item.1

/-- Line 285 of `BpyDataProxy.update`:
`deltas = sorted(diff.collection_deltas, key=_creation_order_predicate)`. -/
def sortCollectionDeltas {Δ : Type} (deltas : List (String × Δ)) : List (String × Δ) :=
  pySorted _creation_order_predicate deltas

/-- `RecursionGuard.MAX_DEPTH` (line 61). -/
def MAX_DEPTH : Nat := 30

/-- `RecursionGuard.push` (lines 66-70): append the attribute name to the
stack, then raise `MaxDepthExceeded` with the dot-joined path when the
stack is deeper than `MAX_DEPTH`. The raised path is the `Except.error`
payload. -/
def push (stack : List String) (name : String) : Except String (List String) :=
  let stack2 := stack ++ [name]
  if MAX_DEPTH < stack2.length then
    Except.error (String.intercalate "." stack2)
  else
    Except.ok stack2

/-- A sequence of `push` calls (one traversal descending without popping). -/
def pushAll (stack : List String) : List String → Except String (List String)
  | [] => Except.ok stack
  | n :: ns =>
    match push stack n with
    | Except.error e => Except.error e
    | Except.ok stack2 => pushAll stack2 ns

/-- Lines 297-302 of `BpyDataProxy.update`: the slice handling
`_delayed_updates`. Input: the `updates` argument, the current
`_delayed_updates` queue and the `process_delayed_updates` flag; output:
the working set handed to the diff loop and the queue after the call.
Sets are modelled as lists up to membership; the update elements are
(uuid, type) pairs. -/
def updateWorkingSet (updates delayed : List (Uuid × BType)) (flag : Bool) :
    List (Uuid × BType) × List (Uuid × BType) :=
  if flag then
    (updates ++ delayed.filter (fun d => decide (d ∉ updates)), [])
  else
    (updates, delayed)

/-- The per-datablock tail of `BpyDataProxy.update` (lines 302-332): the
working set is sorted with `_updates_order_predicate` and each datablock
independently yields at most one entry of `changeset.updates`. The guard
chain (untracked type, scene skip, missing proxy) and the `proxy.diff`
pipeline are abstracted into the per-datablock predicate `hasDelta`. -/
def emittedUpdates (hasDelta : Uuid × BType → Bool) (working : List (Uuid × BType)) :
    List (Uuid × BType) :=
  (pySorted _updates_order_predicate working).filter hasDelta

/-- A datablock of the live store as seen by `bpy_data_proxy.py`: its
current name, its type, and `datablock.data.mixer_uuid` when it is an
Object carrying data (`none` models `datablock.data is None`). -/
structure DatablockRec where
  name : String
  btype : BType
  dataUuid : Option Uuid
deriving DecidableEq

/-- The `ProxyState` of `bpy_data_proxy.py` (lines 76-91) together with the
parts of `BpyDataProxy` the modelled methods read: `collections` holds the
keys of `self._data`, `live` the uuids present in the live `bpy.data`
store. -/
structure ProxyStateM where
  proxies : List (Uuid × String)
  datablocks : List (Uuid × DatablockRec)
  objects : List (Uuid × List Uuid)
  unresolved_refs : List Uuid
  live : List Uuid
  collections : List String
deriving DecidableEq

/-- `del d[k]` on an association list (all bindings of `k` removed). -/
def removeKey {β : Type} (l : List (Uuid × β)) (k : Uuid) : List (Uuid × β) :=
  l.filter (fun p => p.1 != k)

/-- `d[k] = v` on an association list: replace the first binding of `k`
in place, or append a new binding. -/
def setKey {β : Type} (k : Uuid) (v : β) : List (Uuid × β) → List (Uuid × β)
  | [] => [(k, v)]
  | p :: t => if p.1 == k then (k, v) :: t else p :: setKey k v t

/-- Modelled from the spec: `DatablockCollectionProxy.rename_datablock` is
not among the sources; per the spec (sections 4.6 and the two-phase
protocol rationale) renaming a datablock to a name already used by another
datablock triggers a spontaneous deviation of the requested name by the
live store (Blender appends a numeric suffix, modelled as ".001");
otherwise the datablock takes the requested name. -/
def renameDatablock (datablocks : List (Uuid × DatablockRec)) (u : Uuid) (n : String) :
    List (Uuid × DatablockRec) :=
  let clash := datablocks.any (fun p => p.1 != u && p.2.name == n)
  let n2 := if clash then n ++ ".001" else n
  datablocks.map (fun p => if p.1 == u then (p.1, { p.2 with name := n2 }) else p)

/-- One element of the `renames` work list built by
`BpyDataProxy.rename_datablocks` (line 445):
`[bpy_data_collection_proxy, proxy, old_name, tmp_name, new_name, datablock]`,
keeping the collection proxy's name and the datablock's uuid. -/
structure RenameEntry where
  coll : String
  uuid : Uuid
  oldName : String
  tmpName : String
  newName : String
deriving DecidableEq

/-- One element of the `rename_changeset_to_send` built by
`BpyDataProxy.rename_datablocks` (lines 436-443):
(uuid, current live name, new name, message). -/
abbrev RenameOut := Uuid × String × String × String

/-- Outcome of the gathering loop of `rename_datablocks` (lines 410-445):
`abort` models the `return []` taken when a uuid has no registered proxy,
`exn` an uncaught `KeyError` from `self.state.datablocks[uuid]`. -/
inductive GatherResult
  | abort
  | exn
  | ok (rcs : List RenameOut) (renames : List RenameEntry)
deriving DecidableEq

/-- The gathering loop of `BpyDataProxy.rename_datablocks` (lines 410-445),
reading the state before any rename is applied. -/
def renameGather (st : ProxyStateM) : List (Uuid × String × String) → GatherResult
  | [] => GatherResult.ok [] []
  | (uuid, oldName, newName) :: rest =>
    match st.proxies.lookup uuid with
    | none => GatherResult.abort
    | some collName =>
      if st.collections.contains collName then
        match st.datablocks.lookup uuid with
        | none => GatherResult.exn
        | some db =>
          let tmpName := "_mixer_tmp_" ++ uuid
          if db.name != newName && db.name != oldName then
            let newName2 := "_mixer_rename_conflict_" ++ uuid
            let out : RenameOut :=
              (uuid, db.name, newName2,
               "Conflict bpy.data." ++ collName ++ "[" ++ db.name ++ "] into " ++ newName2)
            match renameGather st rest with
            | GatherResult.abort => GatherResult.abort
            | GatherResult.exn => GatherResult.exn
            | GatherResult.ok rcs renames =>
              GatherResult.ok (out :: rcs)
                (⟨collName, uuid, oldName, tmpName, newName2⟩ :: renames)
          else
            match renameGather st rest with
            | GatherResult.abort => GatherResult.abort
            | GatherResult.exn => GatherResult.exn
            | GatherResult.ok rcs renames =>
              GatherResult.ok rcs (⟨collName, uuid, oldName, tmpName, newName⟩ :: renames)
      else
        renameGather st rest

/-- `BpyDataProxy.rename_datablocks` (lines 404-455): gather, then the two
rename phases (first every datablock to its temporary name, then every
datablock to its final name). `none` models an uncaught exception; a
normal return yields the `rename_changeset_to_send` and the state after
the renames. -/
def rename_datablocks (st : ProxyStateM) (items : List (Uuid × String × String)) :
    Option (List RenameOut × ProxyStateM) :=
  match renameGather st items with
  | GatherResult.exn => none
  | GatherResult.abort => some ([], st)
  | GatherResult.ok rcs renames =>
    let d1 := renames.foldl (fun d e => renameDatablock d e.uuid e.tmpName) st.datablocks
    let d2 := renames.foldl (fun d e => renameDatablock d e.uuid e.newName) d1
    some (rcs, { st with datablocks := d2 })

/-- `BpyDataProxy.remove_datablock` (lines 369-402). `none` models an
uncaught exception (`KeyError`); a normal return yields the state after
the call. The live-store removal performed by
`DatablockCollectionProxy.remove_datablock` (not among the sources) is
modelled from the spec as dropping the uuid from the live store. -/
def remove_datablock (st : ProxyStateM) (uuid : Uuid) : Option ProxyStateM :=
  match st.proxies.lookup uuid with
  | none => some st
  | some collName =>
    if st.collections.contains collName then
      match st.datablocks.lookup uuid with
      | none => none
      | some db =>
        let dataUuid : Option Uuid := if db.btype = BType.Object then db.dataUuid else none
        let live2 := st.live.filter (fun v => v != uuid)
        match dataUuid with
        | some du =>
          let s := (st.objects.lookup du).getD []
          if s.contains uuid then
            some { st with
                   objects := setKey du (s.filter (fun v => v != uuid)) st.objects,
                   live := live2,
                   proxies := removeKey st.proxies uuid,
                   datablocks := removeKey st.datablocks uuid }
          else
            none
        | none =>
          some { st with
                 objects := removeKey st.objects uuid,
                 live := live2,
                 proxies := removeKey st.proxies uuid,
                 datablocks := removeKey st.datablocks uuid }
    else
      some st

/-- The kind of a live `bpy_prop_collection` handled by `fit_aos`
(`specifics.py`): the five fixed-size geometry kinds of
`_resize_geometry_types` (lines 67-76), the two specially handled kinds,
and a catch-all. -/
inductive AosKind
  | meshEdges
  | meshLoops
  | meshLoopTriangles
  | meshPolygons
  | meshVertices
  | gpencilStrokePoints
  | splineBezierPoints
  | other
deriving DecidableEq

/-- `_resize_geometry_types` of `specifics.py` (lines 67-76). -/
def _resize_geometry_types : List AosKind :=
  [AosKind.meshEdges, AosKind.meshLoops, AosKind.meshLoopTriangles,
   AosKind.meshPolygons, AosKind.meshVertices]

/-- A live `bpy_prop_collection` as seen by `fit_aos`: whether it has a
`bl_rna` attribute, its rna kind, and its current element count. -/
structure AosTarget where
  hasRna : Bool
  kind : AosKind
  length : Nat
deriving DecidableEq

/-- What `fit_aos` logged on the taken path. `sizeMismatchError` is the
`resize_geometry(): size mismatch` error (the spec's `GeometryResizeError`). -/
inductive FitLog
  | ok
  | sizeMismatchError
  | removeNotImplementedError
  | notImplementedError
deriving DecidableEq

/-- `fit_aos` of `specifics.py` (lines 648-691): adjust the size of a live
collection proxified as an array of structures. Returns the collection
after the call and the error, if any, that was logged. -/
def fit_aos (target : AosTarget) (proxyLength : Nat) : AosTarget × FitLog :=
  if !target.hasRna then
    (target, FitLog.ok)
  else if target.kind ∈ _resize_geometry_types then
    if target.length ≠ proxyLength then
      if target.length ≠ 0 then
        (target, FitLog.sizeMismatchError)
      else
        ({ target with length := target.length + proxyLength }, FitLog.ok)
    else
      (target, FitLog.ok)
  else if target.kind = AosKind.gpencilStrokePoints then
    ({ target with length := proxyLength }, FitLog.ok)
  else if target.kind = AosKind.splineBezierPoints then
    if target.length < proxyLength then
      ({ target with length := proxyLength }, FitLog.ok)
    else if proxyLength < target.length then
      (target, FitLog.removeNotImplementedError)
    else
      (target, FitLog.ok)
  else
    (target, FitLog.notImplementedError)

/-- A decoded COLLECTION message as consumed by `build_collection`
(`collection.py` lines 22-34): (name_full, visible, instance_offset).
The vector payload is carried opaquely. -/
structure CollMessage where
  nameFull : String
  visible : Bool
  offset : Int × Int × Int
deriving DecidableEq

/-- One entry of `share_data.blender_collections`: the attributes of a live
collection that `build_collection` assigns. -/
structure CollectionRec where
  hide_viewport : Bool
  instance_offset : Int × Int × Int
deriving DecidableEq

/-- The shared state touched by `build_collection`: the
`share_data.blender_collections` registry keyed by name, and the names
passed to `bpy.data.collections.new` so far (to count creations). -/
structure SharedState where
  blenderCollections : List (String × CollectionRec)
  created : List String
deriving DecidableEq

/-- `d[k] = v` on a name-keyed association list. -/
def setName (k : String) (v : CollectionRec) :
    List (String × CollectionRec) → List (String × CollectionRec)
  | [] => [(k, v)]
  | p :: t => if p.1 == k then (k, v) :: t else p :: setName k v t

/-- `build_collection` of `collection.py` (lines 22-34): look the name up
in `share_data.blender_collections`; when absent, create a new collection
(`bpy.data.collections.new`) and register it; in both cases assign
`hide_viewport` (the negation of the received visibility) and
`instance_offset` on the registered collection. -/
def build_collection (st : SharedState) (m : CollMessage) : SharedState :=
  let rec2 : CollectionRec := ⟨!m.visible, m.offset⟩
  match st.blenderCollections.lookup m.nameFull with
  | none =>
    { blenderCollections := setName m.nameFull rec2 st.blenderCollections,
      created := st.created ++ [m.nameFull] }
  | some _ =>
    { blenderCollections := setName m.nameFull rec2 st.blenderCollections,
      created := st.created }

/-! ## Helper lemmas -/

theorem pySorted_perm {α : Type} (key : α → Nat) (l : List α) :
    List.Perm (pySorted key l) l :=
  List.perm_insertionSort (keyLe key) l

theorem pySorted_mem {α : Type} (key : α → Nat) {l : List α} {x : α} :
    x ∈ pySorted key l ↔ x ∈ l :=
  (pySorted_perm key l).mem_iff

theorem pySorted_sorted {α : Type} (key : α → Nat) (l : List α) :
    (pySorted key l).Pairwise (keyLe key) := by
  haveI : IsTotal α (keyLe key) := ⟨fun a b => Nat.le_total (key a) (key b)⟩
  haveI : IsTrans α (keyLe key) := ⟨fun _ _ _ => Nat.le_trans⟩
  exact List.sorted_insertionSort (keyLe key) l

theorem pushAll_ok (names : List String) : ∀ stack : List String,
    stack.length + names.length ≤ MAX_DEPTH →
    pushAll stack names = Except.ok (stack ++ names) := by
  induction names with
  | nil => intro stack _; simp [pushAll]
  | cons n ns ih =>
    intro stack h
    have hlen : ¬ MAX_DEPTH < (stack ++ [n]).length := by
      simp only [List.length_append, List.length_cons, List.length_nil] at *
      omega
    simp only [pushAll, push, if_neg hlen]
    rw [ih (stack ++ [n])
        (by simp only [List.length_append, List.length_cons, List.length_nil] at *; omega)]
    simp

theorem pushAll_error (names : List String) : ∀ stack : List String,
    stack.length ≤ MAX_DEPTH → MAX_DEPTH < stack.length + names.length →
    ∃ e, pushAll stack names = Except.error e := by
  induction names with
  | nil =>
    intro stack h1 h2
    simp only [List.length_nil, Nat.add_zero] at h2
    omega
  | cons n ns ih =>
    intro stack h1 h2
    by_cases hp : MAX_DEPTH < (stack ++ [n]).length
    · exact ⟨String.intercalate "." (stack ++ [n]), by simp only [pushAll, push, if_pos hp]⟩
    · have h1b : (stack ++ [n]).length ≤ MAX_DEPTH := by
        simp only [List.length_append, List.length_cons, List.length_nil] at hp ⊢
        omega
      have h2b : MAX_DEPTH < (stack ++ [n]).length + ns.length := by
        simp only [List.length_cons] at h2
        simp only [List.length_append, List.length_cons, List.length_nil]
        omega
      obtain ⟨e, he⟩ := ih (stack ++ [n]) h1b h2b
      have hpush : push stack n = Except.ok (stack ++ [n]) := by
        simp only [push, if_neg hp]
      refine ⟨e, ?_⟩
      rw [pushAll, hpush]
      exact he

theorem setName_lookup (k : String) (v : CollectionRec) (l : List (String × CollectionRec)) :
    (setName k v l).lookup k = some v := by
  induction l with
  | nil => simp [setName, List.lookup]
  | cons p t ih =>
    by_cases h : p.1 == k
    · simp [setName, h, List.lookup]
    · simp only [setName, h, Bool.false_eq_true, if_false, List.lookup]
      have h2 : (k == p.1) = false := by
        simp only [beq_iff_eq] at h
        exact beq_eq_false_iff_ne.mpr (fun hee => h hee.symm)
      simp [h2, ih]

theorem setName_idem (k : String) (v : CollectionRec) (l : List (String × CollectionRec)) :
    setName k v (setName k v l) = setName k v l := by
  induction l with
  | nil => simp [setName]
  | cons p t ih =>
    by_cases h : p.1 == k
    · simp [setName, h]
    · simp [setName, h, ih]

theorem string_append_right_ne (s : String) {t u : String} (h : t ≠ u) :
    s ++ t ≠ s ++ u := by
  intro he
  apply h
  cases s with
  | mk sd =>
    cases t with
    | mk td =>
      cases u with
      | mk ud =>
        simp only [HAppend.hAppend, Append.append, String.append] at he
        have h2 : sd.append td = sd.append ud := congrArg String.data he
        have h3 : td = ud := List.append_cancel_left h2
        rw [h3]

theorem any_rename_clash_eq_false {l : List (Uuid × DatablockRec)} {u : Uuid} {n : String}
    (h : ∀ p ∈ l, p.1 ≠ u → p.2.name ≠ n) :
    (l.any fun p => p.1 != u && p.2.name == n) = false := by
  simp only [List.any_eq_false]
  intro p hp
  simp only [Bool.and_eq_true, bne_iff_ne, beq_iff_eq, not_and]
  exact h p hp

theorem renameDatablock_no_clash {dbs : List (Uuid × DatablockRec)} {u : Uuid} {n : String}
    (h : ∀ p ∈ dbs, p.1 ≠ u → p.2.name ≠ n) :
    renameDatablock dbs u n =
      dbs.map fun p => if p.1 == u then (p.1, { p.2 with name := n }) else p := by
  simp only [renameDatablock]
  rw [any_rename_clash_eq_false h]
  simp

theorem map_set_name_twice (dbs : List (Uuid × DatablockRec)) (u : Uuid) (n1 n2 : String) :
    ((dbs.map fun p => if p.1 == u then (p.1, { p.2 with name := n1 }) else p).map
        fun p => if p.1 == u then (p.1, { p.2 with name := n2 }) else p) =
      dbs.map fun p => if p.1 == u then (p.1, { p.2 with name := n2 }) else p := by
  rw [List.map_map]
  congr 1
  funext p
  by_cases h : p.1 = u <;> simp [h]

theorem renameGather_abort (st : ProxyStateM) :
    ∀ items : List (Uuid × String × String),
    (∀ it ∈ items, (st.proxies.lookup it.1).isSome → (st.datablocks.lookup it.1).isSome) →
    (∃ it ∈ items, st.proxies.lookup it.1 = none) →
    renameGather st items = GatherResult.abort := by
  intro items
  induction items with
  | nil => intro _ hmiss; simp at hmiss
  | cons it rest ih =>
    intro hdb hmiss
    obtain ⟨u, oldN, newN⟩ := it
    cases hp : st.proxies.lookup u with
    | none => simp [renameGather, hp]
    | some collName =>
      have hrest : ∃ it2 ∈ rest, st.proxies.lookup it2.1 = none := by
        rcases hmiss with ⟨it2, hmem, hnone⟩
        rcases List.mem_cons.mp hmem with h | h
        · subst h; simp [hp] at hnone
        · exact ⟨it2, h, hnone⟩
      have habort := ih (fun it2 hm hs => hdb it2 (List.mem_cons_of_mem _ hm) hs) hrest
      have hds : (st.datablocks.lookup u).isSome := by
        have := hdb (u, oldN, newN) (List.mem_cons_self _ _) (by simp [hp])
        simpa using this
      obtain ⟨db, hdbk⟩ := Option.isSome_iff_exists.mp hds
      by_cases hcc : collName ∈ st.collections
      · simp [renameGather, hp, hcc, hdbk, habort]
      · simp [renameGather, hp, hcc, hdbk, habort]

/-! ## Claim theorems -/

/-- C1: the claim states that the removal sort key gives owner types
(`T.Object`) a lower key than their data types, so that an Object's
removal precedes its data's removal in the sorted changeset. The code
does the opposite: `_remove_order_predicate` consults `_updates_order`
(where `T.Object` is absent, hence `sys.maxsize`, and `T.Mesh` maps to
10), not the unused `_removal_order` table, so a Mesh removal is sorted
before the removal of the Object that owns it. This theorem evaluates
the code at the failing input and also shows that the unused
`_removal_order` table would have produced the claimed order. -/
theorem C1_remove_order_uses_updates_order :
    sortRemovals [("obj", BType.Object), ("mesh", BType.Mesh)] =
      [("mesh", BType.Mesh), ("obj", BType.Object)] ∧
    _remove_order_predicate ("obj", BType.Object) = sysMaxsize ∧
    _remove_order_predicate ("mesh", BType.Mesh) = 10 ∧
    (_removal_order BType.Object).getD sysMaxsize <
      (_removal_order BType.Mesh).getD sysMaxsize := by
  refine ⟨?_, rfl, rfl, ?_⟩
  · decide
  · decide

/-- C2 counterexample: the claim states that a per-entity failure such as
a missing registered proxy for one uuid does not abort the batch and
every other entity is still renamed. At this concrete input the first
batch entry ("u1") has no registered proxy and `rename_datablocks`
executes `return []` (bpy_data_proxy.py:415): the whole batch is
abandoned, the state is unchanged, and the other entity "u2" keeps its
old name "A" instead of being renamed to "B". -/
theorem C2_counterexample :
    rename_datablocks
      ⟨[("u2", "objects")], [("u2", ⟨"A", BType.Object, none⟩)], [], [], [], ["objects"]⟩
      [("u1", "X", "Y"), ("u2", "A", "B")] =
      some ([],
        ⟨[("u2", "objects")], [("u2", ⟨"A", BType.Object, none⟩)], [], [], [], ["objects"]⟩) ∧
    ((⟨[("u2", "objects")], [("u2", ⟨"A", BType.Object, none⟩)], [], [], [],
        ["objects"]⟩ : ProxyStateM).datablocks.lookup "u2").map DatablockRec.name =
      some "A" := by
  decide

/-- C2 (amended): in `BpyDataProxy.rename_datablocks` a per-entity failure
to find the collection proxy is isolated (the entity is skipped with a
log), but a missing registered proxy for any uuid of the batch aborts the
whole batch: the function returns an empty rename changeset and renames
nothing, leaving the state unchanged. -/
theorem C2_missing_proxy_aborts_batch (st : ProxyStateM)
    (items : List (Uuid × String × String))
    (hdb : ∀ it ∈ items, (st.proxies.lookup it.1).isSome → (st.datablocks.lookup it.1).isSome)
    (hmiss : ∃ it ∈ items, st.proxies.lookup it.1 = none) :
    rename_datablocks st items = some ([], st) := by
  simp [rename_datablocks, renameGather_abort st items hdb hmiss]

/-- C2 witness: a concrete batch with one unknown uuid is wholly aborted
with an empty changeset and an unchanged state. -/
theorem C2_missing_proxy_aborts_batch_witness :
    rename_datablocks
      ⟨[("v2", "objects")], [("v2", ⟨"A", BType.Object, none⟩)], [], [], [], ["objects"]⟩
      [("v1", "X", "Y"), ("v2", "A", "B")] =
      some ([],
        ⟨[("v2", "objects")], [("v2", ⟨"A", BType.Object, none⟩)], [], [], [],
          ["objects"]⟩) :=
  C2_missing_proxy_aborts_batch
    ⟨[("v2", "objects")], [("v2", ⟨"A", BType.Object, none⟩)], [], [], [], ["objects"]⟩
    [("v1", "X", "Y"), ("v2", "A", "B")] (by decide) (by decide)

/-- C3: a rename command whose target's live name matches neither the
incoming old name nor the incoming new name is a conflict:
`rename_datablocks` renames the datablock to the deterministic conflict
name `"_mixer_rename_conflict_" ++ uuid` and appends an outbound rename
command to that same name to the returned rename changeset. The
conclusion mentions neither `oldN` nor `newN`, so the resulting name is
independent of the incoming names and all peers converge on it. -/
theorem C3_rename_conflict (st : ProxyStateM) (u : Uuid) (oldN newN collName : String)
    (db : DatablockRec)
    (hp : st.proxies.lookup u = some collName)
    (hcc : collName ∈ st.collections)
    (hd : st.datablocks.lookup u = some db)
    (hnew : db.name ≠ newN)
    (hold : db.name ≠ oldN)
    (htmp : ∀ p ∈ st.datablocks, p.1 ≠ u → p.2.name ≠ "_mixer_tmp_" ++ u)
    (hconf : ∀ p ∈ st.datablocks, p.1 ≠ u → p.2.name ≠ "_mixer_rename_conflict_" ++ u) :
    rename_datablocks st [(u, oldN, newN)] =
      some ([(u, db.name, "_mixer_rename_conflict_" ++ u,
              "Conflict bpy.data." ++ collName ++ "[" ++ db.name ++ "] into " ++
                ("_mixer_rename_conflict_" ++ u))],
        { st with datablocks :=
            st.datablocks.map fun p =>
              if p.1 == u then (p.1, { p.2 with name := "_mixer_rename_conflict_" ++ u })
              else p }) := by
  have hcond : (db.name != newN && db.name != oldN) = true := by
    simp [bne_iff_ne, hnew, hold]
  have hga : renameGather st [(u, oldN, newN)] =
      GatherResult.ok
        [(u, db.name, "_mixer_rename_conflict_" ++ u,
          "Conflict bpy.data." ++ collName ++ "[" ++ db.name ++ "] into " ++
            ("_mixer_rename_conflict_" ++ u))]
        [⟨collName, u, oldN, "_mixer_tmp_" ++ u, "_mixer_rename_conflict_" ++ u⟩] := by
    simp [renameGather, hp, hcc, hd, hcond]
  have h1 : renameDatablock st.datablocks u ("_mixer_tmp_" ++ u) =
      st.datablocks.map
        (fun p => if p.1 == u then (p.1, { p.2 with name := "_mixer_tmp_" ++ u }) else p) :=
    renameDatablock_no_clash htmp
  have hconf1 : ∀ p ∈ st.datablocks.map
      (fun p => if p.1 == u then (p.1, { p.2 with name := "_mixer_tmp_" ++ u }) else p),
      p.1 ≠ u → p.2.name ≠ "_mixer_rename_conflict_" ++ u := by
    intro p hpm hpu
    obtain ⟨q, hq, rfl⟩ := List.mem_map.mp hpm
    by_cases h : q.1 == u
    · exfalso
      apply hpu
      simp only [h, if_true]
      exact beq_iff_eq.mp h
    · simp only [h, Bool.false_eq_true, if_false] at hpu ⊢
      exact hconf q hq (by simpa using h)
  have h2 : renameDatablock
      (st.datablocks.map
        (fun p => if p.1 == u then (p.1, { p.2 with name := "_mixer_tmp_" ++ u }) else p))
      u ("_mixer_rename_conflict_" ++ u) =
      (st.datablocks.map
        (fun p => if p.1 == u then (p.1, { p.2 with name := "_mixer_tmp_" ++ u }) else p)).map
        (fun p =>
          if p.1 == u then (p.1, { p.2 with name := "_mixer_rename_conflict_" ++ u })
          else p) :=
    renameDatablock_no_clash hconf1
  unfold rename_datablocks
  rw [hga]
  simp only [List.foldl_cons, List.foldl_nil]
  rw [h1, h2, map_set_name_twice]

/-- C3 witness: a concrete conflicting rename is resolved to the
deterministic conflict name and an outbound rename is emitted. -/
theorem C3_rename_conflict_witness :
    rename_datablocks
      ⟨[("w1", "objects")], [("w1", ⟨"A", BType.Object, none⟩)], [], [], [], ["objects"]⟩
      [("w1", "B", "C")] =
      some ([("w1", "A", "_mixer_rename_conflict_" ++ "w1",
              "Conflict bpy.data." ++ "objects" ++ "[" ++ "A" ++ "] into " ++
                ("_mixer_rename_conflict_" ++ "w1"))],
        ⟨[("w1", "objects")],
         [("w1", ⟨"A", BType.Object, none⟩)].map fun p =>
           if p.1 == "w1" then (p.1, { p.2 with name := "_mixer_rename_conflict_" ++ "w1" })
           else p,
         [], [], [], ["objects"]⟩) :=
  C3_rename_conflict
    ⟨[("w1", "objects")], [("w1", ⟨"A", BType.Object, none⟩)], [], [], [], ["objects"]⟩
    "w1" "B" "C" "objects" ⟨"A", BType.Object, none⟩
    (by decide) (by decide) (by decide) (by decide) (by decide) (by decide) (by decide)

/-- C4: `rename_datablocks` applies a batch in two passes, first renaming
every datablock to the placeholder `"_mixer_tmp_" ++ uuid` and then to
its final name; for the swap batch [(u1, a, b), (u2, b, a)] applied to
datablocks currently named `a` and `b`, entity u1 ends named `b` and u2
ends named `a`, the transient placeholder names preventing any name
collision from deviating the outcome. -/
theorem C4_rename_swap (prox : List (Uuid × String)) (objs : List (Uuid × List Uuid))
    (unr live : List Uuid) (colls : List String)
    (u1 u2 : Uuid) (c1 c2 : String) (a b : String) (t1 t2 : BType) (e1 e2 : Option Uuid)
    (hne : u1 ≠ u2) (hab : a ≠ b)
    (hb1 : b ≠ "_mixer_tmp_" ++ u1) (hb2 : b ≠ "_mixer_tmp_" ++ u2)
    (hp1 : prox.lookup u1 = some c1) (hc1 : c1 ∈ colls)
    (hp2 : prox.lookup u2 = some c2) (hc2 : c2 ∈ colls) :
    rename_datablocks
      ⟨prox, [(u1, ⟨a, t1, e1⟩), (u2, ⟨b, t2, e2⟩)], objs, unr, live, colls⟩
      [(u1, a, b), (u2, b, a)] =
      some ([],
        ⟨prox, [(u1, ⟨b, t1, e1⟩), (u2, ⟨a, t2, e2⟩)], objs, unr, live, colls⟩) := by
  have htmp12 : ("_mixer_tmp_" ++ u1 : String) ≠ "_mixer_tmp_" ++ u2 :=
    string_append_right_ne _ hne
  have hbeq21 : (u2 == u1) = false := beq_eq_false_iff_ne.mpr (Ne.symm hne)
  have hbeq12 : (u1 == u2) = false := beq_eq_false_iff_ne.mpr hne
  simp [rename_datablocks, renameGather, renameDatablock, List.lookup,
        List.foldl_cons, List.foldl_nil, List.any_cons, List.any_nil,
        Bool.or_eq_true, Bool.and_eq_true, bne_iff_ne, beq_iff_eq,
        hbeq12, hbeq21,
        hp1, hp2, hc1, hc2, hne, Ne.symm hne, hab, Ne.symm hab,
        hb1, Ne.symm hb1, hb2, Ne.symm hb2, htmp12, Ne.symm htmp12]

/-- C4 witness: a concrete swap batch exchanges the two names. -/
theorem C4_rename_swap_witness :
    rename_datablocks
      ⟨[("x1", "objects"), ("x2", "objects")],
       [("x1", ⟨"A", BType.Object, none⟩), ("x2", ⟨"B", BType.Object, none⟩)],
       [], [], [], ["objects"]⟩
      [("x1", "A", "B"), ("x2", "B", "A")] =
      some ([],
        ⟨[("x1", "objects"), ("x2", "objects")],
         [("x1", ⟨"B", BType.Object, none⟩), ("x2", ⟨"A", BType.Object, none⟩)],
         [], [], [], ["objects"]⟩) :=
  C4_rename_swap [("x1", "objects"), ("x2", "objects")] [] [] [] ["objects"]
    "x1" "x2" "objects" "objects" "A" "B" BType.Object BType.Object none none
    (by decide) (by decide) (by decide) (by decide)
    (by decide) (by decide) (by decide) (by decide)

/-- C5: `RecursionGuard.push` raises `MaxDepthExceeded` carrying the
dot-joined attribute path exactly when the stack depth after the push
exceeds `MAX_DEPTH = 30`; a push leaving depth at most 30 returns
normally; a traversal of at most 30 pushes never triggers the guard and
one of more than 30 pushes always fails. -/
theorem C5_recursion_guard (stack : List String) (name : String) (names : List String) :
    MAX_DEPTH = 30 ∧
    (MAX_DEPTH < stack.length + 1 →
      push stack name = Except.error (String.intercalate "." (stack ++ [name]))) ∧
    (stack.length + 1 ≤ MAX_DEPTH → push stack name = Except.ok (stack ++ [name])) ∧
    (names.length ≤ MAX_DEPTH → pushAll [] names = Except.ok names) ∧
    (MAX_DEPTH < names.length → ∃ e, pushAll [] names = Except.error e) := by
  refine ⟨rfl, ?_, ?_, ?_, ?_⟩
  · intro h
    have hlen : MAX_DEPTH < (stack ++ [name]).length := by
      simpa [List.length_append] using h
    simp only [push, if_pos hlen]
  · intro h
    have hlen : ¬ MAX_DEPTH < (stack ++ [name]).length := by
      simp only [List.length_append, List.length_cons, List.length_nil]
      omega
    simp only [push, if_neg hlen]
  · intro h
    simpa using pushAll_ok names [] (by simpa using h)
  · intro h
    exact pushAll_error names [] (by simp [MAX_DEPTH]) (by simpa using h)

/-- C5 witness: a push onto a stack of depth 30 fails with the dot-joined
path, and a traversal of 31 pushes fails. -/
theorem C5_recursion_guard_witness :
    push (List.replicate 30 "a") "b" =
      Except.error (String.intercalate "." (List.replicate 30 "a" ++ ["b"])) ∧
    (∃ e, pushAll [] (List.replicate 31 "c") = Except.error e) :=
  ⟨(C5_recursion_guard (List.replicate 30 "a") "b" (List.replicate 31 "c")).2.1 (by decide),
   (C5_recursion_guard (List.replicate 30 "a") "b" (List.replicate 31 "c")).2.2.2.2 (by decide)⟩

/-- C6: for a bulk-buffer target of one of the five fixed-size geometry
kinds, `fit_aos` resizes (adding exactly the incoming element count) only
when the existing length is zero; a nonzero existing length that differs
from the incoming length logs the size-mismatch error and leaves the
length unchanged; equal lengths change nothing. -/
theorem C6_fit_aos_geometry (t : AosTarget) (n : Nat)
    (hr : t.hasRna = true)
    (hg : t.kind ∈ _resize_geometry_types) :
    (t.length = 0 → fit_aos t n = ({ t with length := n }, FitLog.ok)) ∧
    (t.length ≠ 0 → t.length ≠ n → fit_aos t n = (t, FitLog.sizeMismatchError)) ∧
    (t.length = n → fit_aos t n = (t, FitLog.ok)) := by
  obtain ⟨hasRna, kind, len⟩ := t
  simp only at hr hg
  subst hr
  refine ⟨?_, ?_, ?_⟩
  · intro h0
    simp only at h0
    subst h0
    by_cases hn : n = 0
    · subst hn
      simp [fit_aos, hg]
    · simp [fit_aos, hg, hn, Ne.symm hn]
  · intro h0 hne
    simp only at h0 hne
    simp [fit_aos, hg, h0, hne]
  · intro he
    simp only at he
    subst he
    simp [fit_aos, hg]

/-- C6 witness: a MeshVertices collection of length 0 is resized to the
incoming 5 elements; one of length 3 with incoming 5 logs the mismatch
error unchanged; one of length 5 with incoming 5 is untouched. -/
theorem C6_fit_aos_geometry_witness :
    fit_aos ⟨true, AosKind.meshVertices, 0⟩ 5 = (⟨true, AosKind.meshVertices, 5⟩, FitLog.ok) ∧
    fit_aos ⟨true, AosKind.meshVertices, 3⟩ 5 =
      (⟨true, AosKind.meshVertices, 3⟩, FitLog.sizeMismatchError) ∧
    fit_aos ⟨true, AosKind.meshVertices, 5⟩ 5 = (⟨true, AosKind.meshVertices, 5⟩, FitLog.ok) :=
  ⟨(C6_fit_aos_geometry ⟨true, AosKind.meshVertices, 0⟩ 5 rfl (by decide)).1 rfl,
   (C6_fit_aos_geometry ⟨true, AosKind.meshVertices, 3⟩ 5 rfl (by decide)).2.1
     (by decide) (by decide),
   (C6_fit_aos_geometry ⟨true, AosKind.meshVertices, 5⟩ 5 rfl (by decide)).2.2 rfl⟩

/-- C7: `BpyDataProxy.update` processes the per-bucket collection deltas
sorted by `_creation_order_predicate`: the sorted list is a permutation of
the input, its keys are nondecreasing, and the keys are 10/20/30/40 for
"collections"/"scenes"/"objects"/"shape_keys" and 0 for every other
bucket, so every other bucket comes first and shape keys last. -/
theorem C7_creation_order {Δ : Type} (l : List (String × Δ)) :
    List.Perm (sortCollectionDeltas l) l ∧
    (sortCollectionDeltas l).Pairwise (keyLe (_creation_order_predicate (Δ := Δ))) ∧
    (∀ d : Δ, _creation_order_predicate ("collections", d) = 10) ∧
    (∀ d : Δ, _creation_order_predicate ("scenes", d) = 20) ∧
    (∀ d : Δ, _creation_order_predicate ("objects", d) = 30) ∧
    (∀ d : Δ, _creation_order_predicate ("shape_keys", d) = 40) ∧
    (∀ (n : String) (d : Δ), n ≠ "collections" → n ≠ "scenes" → n ≠ "objects" →
      n ≠ "shape_keys" → _creation_order_predicate (n, d) = 0) := by
  refine ⟨pySorted_perm _ l, pySorted_sorted _ l, fun d => rfl, fun d => rfl, fun d => rfl,
    fun d => rfl, ?_⟩
  intro n d h1 h2 h3 h4
  simp [_creation_order_predicate, _creation_order, h1, h2, h3, h4]

/-- C7 witness: sorting a concrete delta list keeps it a permutation with
nondecreasing keys, and the "meshes" bucket gets key 0. -/
theorem C7_creation_order_witness :
    List.Perm (sortCollectionDeltas [("scenes", (0 : Nat)), ("meshes", 0)])
      [("scenes", (0 : Nat)), ("meshes", 0)] ∧
    _creation_order_predicate (("meshes", (0 : Nat))) = 0 :=
  ⟨(C7_creation_order [("scenes", (0 : Nat)), ("meshes", 0)]).1,
   (C7_creation_order [("scenes", (0 : Nat)), ("meshes", 0)]).2.2.2.2.2.2 "meshes" 0
     (by decide) (by decide) (by decide) (by decide)⟩

/-- C8: `BpyDataProxy.update` merges `_delayed_updates` into the working
set it diffs, and clears the queue, exactly when `process_delayed_updates`
is true: with the flag false the call leaves the queue unchanged and the
working set is exactly the `updates` argument, so a delayed datablock not
independently present in `updates` contributes no entry to the returned
changeset's updates. -/
theorem C8_delayed_updates (u d : List (Uuid × BType)) :
    updateWorkingSet u d false = (u, d) ∧
    (updateWorkingSet u d true).2 = [] ∧
    (∀ x, x ∈ (updateWorkingSet u d true).1 ↔ x ∈ u ∨ x ∈ d) ∧
    (∀ (f : Uuid × BType → Bool) (x : Uuid × BType), x ∈ d → x ∉ u →
      x ∉ emittedUpdates f (updateWorkingSet u d false).1) := by
  refine ⟨rfl, rfl, ?_, ?_⟩
  · intro x
    simp only [updateWorkingSet, if_true, List.mem_append, List.mem_filter,
      decide_eq_true_eq]
    tauto
  · intro f x hxd hxu hmem
    have hx : x ∈ pySorted _updates_order_predicate u := (List.mem_filter.mp hmem).1
    exact hxu ((pySorted_mem _).mp hx)

/-- C8 witness: a delayed datablock absent from the `updates` argument is
not part of the emitted updates when the flag is false. -/
theorem C8_delayed_updates_witness :
    ("b", BType.other) ∈ [("b", BType.other)] ∧
    ("b", BType.other) ∉ [("a", BType.Mesh)] ∧
    ("b", BType.other) ∉ emittedUpdates (fun _ => true)
        (updateWorkingSet [("a", BType.Mesh)] [("b", BType.other)] false).1 :=
  ⟨by decide, by decide,
   (C8_delayed_updates [("a", BType.Mesh)] [("b", BType.other)]).2.2.2 (fun _ => true)
     ("b", BType.other) (by decide) (by decide)⟩

/-- C9: `BpyDataProxy.remove_datablock` called with a uuid that has no
registered proxy logs an error and returns normally with the entire
`ProxyState` unchanged. -/
theorem C9_remove_unknown_uuid (st : ProxyStateM) (uuid : Uuid)
    (h : st.proxies.lookup uuid = none) :
    remove_datablock st uuid = some st := by
  simp [remove_datablock, h]

/-- C9 witness: removing an unknown uuid from a nonempty state returns the
state unchanged. -/
theorem C9_remove_unknown_uuid_witness :
    remove_datablock
      ⟨[("u1", "objects")], [("u1", ⟨"A", BType.Object, none⟩)], [], [], ["u1"], ["objects"]⟩
      "u2" =
      some ⟨[("u1", "objects")], [("u1", ⟨"A", BType.Object, none⟩)], [], [], ["u1"],
        ["objects"]⟩ :=
  C9_remove_unknown_uuid
    ⟨[("u1", "objects")], [("u1", ⟨"A", BType.Object, none⟩)], [], [], ["u1"], ["objects"]⟩
    "u2" (by decide)

/-- C10: `build_collection` is idempotent on the shared collection
registry: applying the same decoded message twice yields the same shared
state as applying it once, and the number of live collections created is
exactly one when the name was absent (and zero when present), for either
one or two applications. -/
theorem C10_build_collection_idempotent (st : SharedState) (m : CollMessage) :
    build_collection (build_collection st m) m = build_collection st m ∧
    (build_collection st m).created.length =
      st.created.length +
        (if st.blenderCollections.lookup m.nameFull = none then 1 else 0) ∧
    (build_collection (build_collection st m) m).created.length =
      st.created.length +
        (if st.blenderCollections.lookup m.nameFull = none then 1 else 0) := by
  have hmain : build_collection (build_collection st m) m = build_collection st m := by
    cases hl : st.blenderCollections.lookup m.nameFull with
    | none =>
      simp only [build_collection, hl]
      simp [setName_lookup, setName_idem]
    | some c =>
      simp only [build_collection, hl]
      simp [setName_lookup, setName_idem]
  refine ⟨hmain, ?_, ?_⟩
  · cases hl : st.blenderCollections.lookup m.nameFull with
    | none => simp [build_collection, hl]
    | some c => simp [build_collection, hl]
  · rw [hmain]
    cases hl : st.blenderCollections.lookup m.nameFull with
    | none => simp [build_collection, hl]
    | some c => simp [build_collection, hl]

end Mixer
